import Mathlib

/-
Verification of the trainee learning-progress workflow service
(`src/application/services/trainee_service.py`) and the mentor review
input validation (`src/application/dto/mentor_dto.py`) of the trainee-hub
repository.

The repository stores are accessed through the ports
`ITraineeTechnologyStateRepository` and `ILearningSessionLogRepository`;
they are modelled as in-memory lists, with `add` appending and `update`
replacing the record with the matching id (the port documentation states
"Implementations should use the `state.id` to find and update the
record").  UUIDs and datetimes are modelled as naturals.  Each service
call is embedded as a pure function from the repository state and the
call's nondeterministic inputs (the clock value and the fresh uuid) to
the returned result together with the ordered list of repository writes
the call performs; the post-state of a call is obtained by applying that
write list to the pre-state.  An error result carries an empty write
list exactly because, in the source, every `raise` happens before the
first repository write of the call.
-/

set_option maxHeartbeats 1000000

deriving instance DecidableEq for Except

/-- The `LearningState` enumeration of `src/core/domain/models.py`:
the workflow states of one trainee-technology "task card". -/
inductive LearningState where
  | PLANNED
  | IN_PROGRESS
  | READY_FOR_REVIEW
  | REVIEW_SCHEDULED
  | APPROVED
  | CANCELLED
  deriving DecidableEq, Repr

/-- The `TraineeTechnologyState` model ("task card") of
`src/core/domain/models.py`.  UUID fields and timestamps are naturals. -/
structure TraineeTechnologyState where
  id : Nat
  trainee_id : Nat
  technology_id : Nat
  mentor_id : Nat
  state : LearningState
  added_at : Nat
  scheduled_review_at : Option Nat
  deriving DecidableEq, Repr

/-- The `LearningSessionLog` model of `src/core/domain/models.py`:
one continuous timed session; `end_time = none` means the session is
still open. -/
structure LearningSessionLog where
  id : Nat
  trainee_technology_state_id : Nat
  start_time : Nat
  end_time : Option Nat
  deriving DecidableEq, Repr

/-- The combined contents of the task-card store and the session-log
store seen by one service call. -/
structure RepoState where
  cards : List TraineeTechnologyState
  logs : List LearningSessionLog
  deriving DecidableEq, Repr

/-- The domain exceptions of `src/core/exceptions/exceptions.py` that the
trainee service can raise.  `invalidLearningStateTransition` carries the
`from_state`/`to_state` pair exactly as the exception constructor does. -/
inductive DomainErr where
  | traineeTechnologyStateNotFound
  | learningSessionAlreadyInProgress
  | invalidLearningStateTransition (from_state to_state : LearningState)
  | noActiveLearningSession
  deriving DecidableEq, Repr

/-- `ITraineeTechnologyStateRepository.find_by_trainee_and_technology`:
the task card for the (trainee, technology) business key, or `none`. -/
def find_by_trainee_and_technology (s : RepoState) (trainee_id technology_id : Nat) :
    Option TraineeTechnologyState :=
  s.cards.find? (fun c => c.trainee_id == trainee_id && c.technology_id == technology_id)

/-- The task card owning a session log, resolved through the log's
`trainee_technology_state_id` foreign key. -/
def cardForLog (s : RepoState) (l : LearningSessionLog) : Option TraineeTechnologyState :=
  s.cards.find? (fun c => c.id == l.trainee_technology_state_id)

/-- Whether a session log belongs to the given trainee: its owning task
card (if any) has that `trainee_id`. -/
def logBelongsToTrainee (s : RepoState) (trainee_id : Nat) (l : LearningSessionLog) : Bool :=
  match cardForLog s l with
  | some c => c.trainee_id == trainee_id
  | none => false

/-- Whether a session log is an open (still running) log of the given
trainee: `end_time` is null and the log's card belongs to the trainee. -/
def isOpenFor (s : RepoState) (trainee_id : Nat) (l : LearningSessionLog) : Bool :=
  l.end_time.isNone && logBelongsToTrainee s trainee_id l

/-- Modelled from the spec: the repository implementation behind
`ILearningSessionLogRepository.find_active_session_by_trainee_id` is not
part of the source tree (only the port with its contract is); per its
contract it returns "the currently active (end_time=None) session for a
specific trainee", or `None` when there is no active session. -/
def find_active_session_by_trainee_id (s : RepoState) (trainee_id : Nat) :
    Option LearningSessionLog :=
  s.logs.find? (isOpenFor s trainee_id)

/-- One repository write issued by a service call, in the order the call
awaits it: `ILearningSessionLogRepository.add` / `.update` and
`ITraineeTechnologyStateRepository.update`. -/
inductive RepoWrite where
  | logAdd (l : LearningSessionLog)
  | logUpdate (l : LearningSessionLog)
  | cardUpdate (c : TraineeTechnologyState)
  deriving DecidableEq, Repr

/-- Effect of one repository write on the stores: `add` appends,
`update` replaces the record with the matching id. -/
def applyWrite (s : RepoState) : RepoWrite → RepoState
  | .logAdd l => { s with logs := s.logs ++ [l] }
  | .logUpdate l => { s with logs := s.logs.map (fun x => if x.id == l.id then l else x) }
  | .cardUpdate c => { s with cards := s.cards.map (fun x => if x.id == c.id then c else x) }

/-- Effect of a list of repository writes, applied in order. -/
def applyWrites (s : RepoState) (ws : List RepoWrite) : RepoState :=
  ws.foldl applyWrite s

/-- `TraineeService.start_learning_technology`.  Mirrors the source step
by step: (1) check for any active session of the trainee, (2) load the
(trainee, technology) card, (3) validate that the card state is PLANNED
or READY_FOR_REVIEW, (4-5) build the updated card and the new open log
(`now` stands for `datetime.now`, `new_log_id` for `uuid4()`), (6) add
the log and then update the card.  The result pairs the returned value
(or raised error) with the ordered repository writes the call issued. -/
def start_learning_technology (s : RepoState) (trainee_id technology_id now new_log_id : Nat) :
    Except DomainErr TraineeTechnologyState × List RepoWrite :=
  match find_active_session_by_trainee_id s trainee_id with
  | some _ => (.error .learningSessionAlreadyInProgress, [])
  | none =>
    match find_by_trainee_and_technology s trainee_id technology_id with
    | none => (.error .traineeTechnologyStateNotFound, [])
    | some tech_state =>
      if tech_state.state = LearningState.PLANNED ∨
          tech_state.state = LearningState.READY_FOR_REVIEW then
        let updated_tech_state := { tech_state with state := LearningState.IN_PROGRESS }
        let new_log : LearningSessionLog :=
          { id := new_log_id
            trainee_technology_state_id := tech_state.id
            start_time := now
            end_time := none }
        (.ok updated_tech_state, [.logAdd new_log, .cardUpdate updated_tech_state])
      else
        (.error (.invalidLearningStateTransition tech_state.state LearningState.IN_PROGRESS), [])

/-- `TraineeService.stop_learning_technology`.  Mirrors the source step
by step: (1) load the (trainee, technology) card, (2) validate that its
state is IN_PROGRESS, (3) find the trainee's active session, (4) check
that the active session belongs to the requested card, (5-6) build the
closed log and the updated card, (7) update the log and then the card. -/
def stop_learning_technology (s : RepoState) (trainee_id technology_id now : Nat) :
    Except DomainErr TraineeTechnologyState × List RepoWrite :=
  match find_by_trainee_and_technology s trainee_id technology_id with
  | none => (.error .traineeTechnologyStateNotFound, [])
  | some tech_state =>
    if tech_state.state ≠ LearningState.IN_PROGRESS then
      (.error (.invalidLearningStateTransition tech_state.state LearningState.READY_FOR_REVIEW), [])
    else
      match find_active_session_by_trainee_id s trainee_id with
      | none => (.error .noActiveLearningSession, [])
      | some active_session =>
        if active_session.trainee_technology_state_id ≠ tech_state.id then
          (.error .learningSessionAlreadyInProgress, [])
        else
          let updated_log := { active_session with end_time := some now }
          let updated_tech_state := { tech_state with state := LearningState.READY_FOR_REVIEW }
          (.ok updated_tech_state, [.logUpdate updated_log, .cardUpdate updated_tech_state])

/-- One service invocation of the workflow service, with its
nondeterministic inputs (clock value, fresh log uuid) made explicit. -/
inductive Op where
  | start (trainee_id technology_id now new_log_id : Nat)
  | stop (trainee_id technology_id now : Nat)
  deriving DecidableEq, Repr

/-- The repository state after one service invocation: the call's writes
applied to the pre-state (an erroring call issues no writes). -/
def applyOp (s : RepoState) : Op → RepoState
  | .start t tech now nid => applyWrites s (start_learning_technology s t tech now nid).2
  | .stop t tech now => applyWrites s (stop_learning_technology s t tech now).2

/-- The repository state after a sequence of service invocations. -/
def applyOps (s : RepoState) (ops : List Op) : RepoState :=
  ops.foldl applyOp s

/-- Number of open session logs of a trainee in a repository state. -/
def OpenCount (s : RepoState) (trainee_id : Nat) : Nat :=
  s.logs.countP (isOpenFor s trainee_id)

/-- The single-open-session invariant: every trainee has at most one
open session log. -/
def AtMostOneOpen (s : RepoState) : Prop :=
  ∀ t, OpenCount s t ≤ 1

/-- Well-formedness of the task-card store: card ids are pairwise
distinct (ids are uuids, and the port contract keys updates on them). -/
def CardIdsNodup (s : RepoState) : Prop :=
  (s.cards.map (fun c => c.id)).Nodup

/-- The `ReviewState` enumeration of `src/core/domain/models.py`. -/
inductive ReviewState where
  | APPROVED
  | REJECTED
  deriving DecidableEq, Repr

/-- The `MentorSubmitReviewDTO` of `src/application/dto/mentor_dto.py`:
a mentor's review submission.  `questions_asked`/`questions_correct` are
optional ints constrained to be ≥ 0. -/
structure MentorSubmitReviewDTO where
  trainee_technology_state_id : Nat
  review_state : ReviewState
  feedback : String
  questions_asked : Option Int
  questions_correct : Option Int
  deriving DecidableEq, Repr

/-- Validation errors raised while constructing a `MentorSubmitReviewDTO`:
a per-field constraint violation (pydantic `Field` checks) or the
cross-field question-count check of `validate_questions`. -/
inductive DtoValidationErr where
  | fieldConstraint
  | questionCountMismatch
  deriving DecidableEq, Repr

/-- The pydantic `Field(ge=0)` constraint on an optional int field. -/
def optIntNonneg : Option Int → Bool
  | none => true
  | some n => decide (0 ≤ n)

/-- Construction of a `MentorSubmitReviewDTO`, mirroring pydantic's
validation order: the per-field constraints (`feedback` min_length 10,
`questions_asked`/`questions_correct` ≥ 0) run first; then the
`mode="after"` model validator `validate_questions` rejects the value
when both counts are present and `questions_correct > questions_asked`. -/
def mkMentorSubmitReviewDTO (tts_id : Nat) (rs : ReviewState) (feedback : String)
    (questions_asked questions_correct : Option Int) :
    Except DtoValidationErr MentorSubmitReviewDTO :=
  if feedback.length < 10 then .error .fieldConstraint
  else if ¬ optIntNonneg questions_asked then .error .fieldConstraint
  else if ¬ optIntNonneg questions_correct then .error .fieldConstraint
  else
    match questions_asked, questions_correct with
    | some a, some c =>
      if c > a then .error .questionCountMismatch
      else .ok ⟨tts_id, rs, feedback, questions_asked, questions_correct⟩
    | _, _ => .ok ⟨tts_id, rs, feedback, questions_asked, questions_correct⟩

/- Concrete repository states used by witnesses and counterexamples. -/

/-- A task card in state PLANNED for trainee 1, technology 2. -/
def cardPlanned : TraineeTechnologyState :=
  { id := 10, trainee_id := 1, technology_id := 2, mentor_id := 3
    state := LearningState.PLANNED, added_at := 0, scheduled_review_at := none }

/-- A task card in state IN_PROGRESS for trainee 1, technology 2. -/
def cardInProgress : TraineeTechnologyState :=
  { id := 10, trainee_id := 1, technology_id := 2, mentor_id := 3
    state := LearningState.IN_PROGRESS, added_at := 0, scheduled_review_at := none }

/-- A second task card, in state IN_PROGRESS, for trainee 1, technology 4. -/
def cardOther : TraineeTechnologyState :=
  { id := 11, trainee_id := 1, technology_id := 4, mentor_id := 3
    state := LearningState.IN_PROGRESS, added_at := 0, scheduled_review_at := none }

/-- A task card in state APPROVED for trainee 1, technology 2. -/
def cardApproved : TraineeTechnologyState :=
  { id := 10, trainee_id := 1, technology_id := 2, mentor_id := 3
    state := LearningState.APPROVED, added_at := 0, scheduled_review_at := none }

/-- An open session log owned by card 10, started at time 5. -/
def openLog10 : LearningSessionLog :=
  { id := 100, trainee_technology_state_id := 10, start_time := 5, end_time := none }

/-- An open session log owned by card 11, started at time 5. -/
def openLog11 : LearningSessionLog :=
  { id := 101, trainee_technology_state_id := 11, start_time := 5, end_time := none }

/-- State with one PLANNED card and no logs. -/
def statePlanned : RepoState := { cards := [cardPlanned], logs := [] }

/-- State with one IN_PROGRESS card and its open log. -/
def stateRunning : RepoState := { cards := [cardInProgress], logs := [openLog10] }

/-- State with the requested card IN_PROGRESS but the open log owned by
the other card. -/
def stateMismatch : RepoState := { cards := [cardInProgress, cardOther], logs := [openLog11] }

/-- State with one APPROVED card and no logs. -/
def stateApproved : RepoState := { cards := [cardApproved], logs := [] }

/-- The empty repository state. -/
def stateEmpty : RepoState := { cards := [], logs := [] }

/- Shared helper lemmas about the error paths of the two operations. -/

/-- An erroring `start_learning_technology` call issues no repository
writes. -/
theorem start_error_no_writes (s : RepoState) (t tech now nid : Nat) (e : DomainErr)
    (h : (start_learning_technology s t tech now nid).1 = .error e) :
    (start_learning_technology s t tech now nid).2 = [] := by
  cases hfa : find_active_session_by_trainee_id s t with
  | some l => simp [start_learning_technology, hfa]
  | none =>
    cases hfb : find_by_trainee_and_technology s t tech with
    | none => simp [start_learning_technology, hfa, hfb]
    | some c =>
      by_cases hst : c.state = LearningState.PLANNED ∨ c.state = LearningState.READY_FOR_REVIEW
      · exfalso
        simp [start_learning_technology, hfa, hfb, hst] at h
      · simp [start_learning_technology, hfa, hfb, hst]

/-- An erroring `stop_learning_technology` call issues no repository
writes. -/
theorem stop_error_no_writes (s : RepoState) (t tech now : Nat) (e : DomainErr)
    (h : (stop_learning_technology s t tech now).1 = .error e) :
    (stop_learning_technology s t tech now).2 = [] := by
  cases hfb : find_by_trainee_and_technology s t tech with
  | none => simp [stop_learning_technology, hfb]
  | some c =>
    by_cases hst : c.state ≠ LearningState.IN_PROGRESS
    · simp [stop_learning_technology, hfb, hst]
    · cases hfa : find_active_session_by_trainee_id s t with
      | none => simp [stop_learning_technology, hfb, hst, hfa]
      | some l =>
        by_cases hmm : l.trainee_technology_state_id ≠ c.id
        · simp [stop_learning_technology, hfb, hst, hfa, hmm]
        · exfalso
          simp [stop_learning_technology, hfb, hst, hfa, hmm] at h


/-- C3: StartLearning failure taxonomy with conflict priority.  The
open-session check runs before the card lookup and the transition check,
so any open session of the trainee yields the session-already-in-progress
error regardless of the card; with no open session, a missing card yields
the not-found error, and a card whose state is neither PLANNED nor
READY_FOR_REVIEW yields the invalid-transition error carrying the
from/to state pair. -/
theorem start_failure_taxonomy (s : RepoState) (t tech now nid : Nat) :
    (find_active_session_by_trainee_id s t ≠ none →
      start_learning_technology s t tech now nid =
        (.error .learningSessionAlreadyInProgress, [])) ∧
    (find_active_session_by_trainee_id s t = none →
      find_by_trainee_and_technology s t tech = none →
      start_learning_technology s t tech now nid =
        (.error .traineeTechnologyStateNotFound, [])) ∧
    (∀ c, find_active_session_by_trainee_id s t = none →
      find_by_trainee_and_technology s t tech = some c →
      c.state ≠ LearningState.PLANNED → c.state ≠ LearningState.READY_FOR_REVIEW →
      start_learning_technology s t tech now nid =
        (.error (.invalidLearningStateTransition c.state LearningState.IN_PROGRESS), [])) := by
  refine ⟨?_, ?_, ?_⟩
  · intro hfa
    cases hact : find_active_session_by_trainee_id s t with
    | none => exact absurd hact hfa
    | some l => simp [start_learning_technology, hact]
  · intro hfa hfb
    simp [start_learning_technology, hfa, hfb]
  · intro c hfa hfb h1 h2
    simp [start_learning_technology, hfa, hfb, h1, h2]

/-- Witness for `start_failure_taxonomy`: the three failure cases at
concrete repository states (an open session, an empty store, and an
APPROVED card). -/
theorem start_failure_taxonomy_witness :
    start_learning_technology stateRunning 1 2 7 99 =
      (.error .learningSessionAlreadyInProgress, []) ∧
    start_learning_technology stateEmpty 1 2 7 99 =
      (.error .traineeTechnologyStateNotFound, []) ∧
    start_learning_technology stateApproved 1 2 7 99 =
      (.error (.invalidLearningStateTransition LearningState.APPROVED
        LearningState.IN_PROGRESS), []) :=
  ⟨(start_failure_taxonomy stateRunning 1 2 7 99).1 (by decide),
   (start_failure_taxonomy stateEmpty 1 2 7 99).2.1 (by decide) (by decide),
   (start_failure_taxonomy stateApproved 1 2 7 99).2.2 cardApproved (by decide) (by decide)
     (by decide) (by decide)⟩

/-- C4 counterexample: a state with zero session logs at all (hence zero
open ones for trainee 1) in which `stop_learning_technology` fails with
the not-found error, not with the no-active-session error, because the
card lookup runs before the active-session lookup. -/
theorem stop_zero_sessions_counterexample :
    stateEmpty.logs = [] ∧
    (stop_learning_technology stateEmpty 1 2 7).1 = .error .traineeTechnologyStateNotFound ∧
    (stop_learning_technology stateEmpty 1 2 7).1 ≠ .error .noActiveLearningSession := by
  decide

/-- C4 (amended): with zero open session logs for the trainee,
`stop_learning_technology` fails with the not-found error when the
(trainee, technology) card is absent, with the invalid-transition error
when the card's state is not IN_PROGRESS, and with the no-active-session
error exactly when the card exists in state IN_PROGRESS; in every case it
performs no writes. -/
theorem stop_zero_sessions_cases (s : RepoState) (t tech now : Nat)
    (hfa : find_active_session_by_trainee_id s t = none) :
    (find_by_trainee_and_technology s t tech = none →
      stop_learning_technology s t tech now =
        (.error .traineeTechnologyStateNotFound, [])) ∧
    (∀ c, find_by_trainee_and_technology s t tech = some c →
      c.state ≠ LearningState.IN_PROGRESS →
      stop_learning_technology s t tech now =
        (.error (.invalidLearningStateTransition c.state LearningState.READY_FOR_REVIEW), [])) ∧
    (∀ c, find_by_trainee_and_technology s t tech = some c →
      c.state = LearningState.IN_PROGRESS →
      stop_learning_technology s t tech now = (.error .noActiveLearningSession, [])) := by
  refine ⟨?_, ?_, ?_⟩
  · intro hfb
    simp [stop_learning_technology, hfb]
  · intro c hfb hst
    simp [stop_learning_technology, hfb, hst]
  · intro c hfb hst
    simp [stop_learning_technology, hfb, hst, hfa]

/-- Witness for `stop_zero_sessions_cases`: the three cases at concrete
repository states with no logs. -/
theorem stop_zero_sessions_cases_witness :
    stop_learning_technology stateEmpty 1 2 7 =
      (.error .traineeTechnologyStateNotFound, []) ∧
    stop_learning_technology statePlanned 1 2 7 =
      (.error (.invalidLearningStateTransition LearningState.PLANNED
        LearningState.READY_FOR_REVIEW), []) ∧
    stop_learning_technology { cards := [cardInProgress], logs := [] } 1 2 7 =
      (.error .noActiveLearningSession, []) :=
  ⟨(stop_zero_sessions_cases stateEmpty 1 2 7 (by decide)).1 (by decide),
   (stop_zero_sessions_cases statePlanned 1 2 7 (by decide)).2.1 cardPlanned
     (by decide) (by decide),
   (stop_zero_sessions_cases { cards := [cardInProgress], logs := [] } 1 2 7
     (by decide)).2.2 cardInProgress (by decide) (by decide)⟩

/-- C10: error atomicity of the workflow service.  Whenever
`start_learning_technology` or `stop_learning_technology` raises, the
call has issued no repository write, and the stored state is unchanged:
every validation and lookup in the source precedes the first write. -/
theorem service_error_atomicity (s : RepoState) (t tech now nid : Nat) :
    (∀ e, (start_learning_technology s t tech now nid).1 = .error e →
      (start_learning_technology s t tech now nid).2 = [] ∧
      applyWrites s (start_learning_technology s t tech now nid).2 = s) ∧
    (∀ e, (stop_learning_technology s t tech now).1 = .error e →
      (stop_learning_technology s t tech now).2 = [] ∧
      applyWrites s (stop_learning_technology s t tech now).2 = s) := by
  constructor
  · intro e h
    have hw := start_error_no_writes s t tech now nid e h
    exact ⟨hw, by rw [hw]; rfl⟩
  · intro e h
    have hw := stop_error_no_writes s t tech now e h
    exact ⟨hw, by rw [hw]; rfl⟩

/-- Witness for `service_error_atomicity`: two concrete erroring calls
leave the store untouched. -/
theorem service_error_atomicity_witness :
    ((start_learning_technology stateRunning 1 2 7 99).2 = [] ∧
      applyWrites stateRunning (start_learning_technology stateRunning 1 2 7 99).2
        = stateRunning) ∧
    ((stop_learning_technology statePlanned 1 2 7).2 = [] ∧
      applyWrites statePlanned (stop_learning_technology statePlanned 1 2 7).2
        = statePlanned) :=
  ⟨(service_error_atomicity stateRunning 1 2 7 99).1 .learningSessionAlreadyInProgress
     (by decide),
   (service_error_atomicity statePlanned 1 2 7 99).2
     (.invalidLearningStateTransition .PLANNED .READY_FOR_REVIEW) (by decide)⟩

/-- C2: StartLearning success postcondition.  With no open session for
the trainee and the (trainee, technology) card in PLANNED or
READY_FOR_REVIEW, the call returns the card with state IN_PROGRESS and
every other field unchanged, persists it, and creates exactly one new
session log owned by that card with `start_time = now` and a null
`end_time`. -/
theorem start_learning_success (s : RepoState) (t tech now nid : Nat)
    (c : TraineeTechnologyState)
    (hfa : find_active_session_by_trainee_id s t = none)
    (hfb : find_by_trainee_and_technology s t tech = some c)
    (hst : c.state = LearningState.PLANNED ∨ c.state = LearningState.READY_FOR_REVIEW) :
    start_learning_technology s t tech now nid =
      (.ok { c with state := LearningState.IN_PROGRESS },
       [.logAdd { id := nid, trainee_technology_state_id := c.id,
                  start_time := now, end_time := none },
        .cardUpdate { c with state := LearningState.IN_PROGRESS }]) ∧
    (applyWrites s (start_learning_technology s t tech now nid).2).logs =
      s.logs ++ [{ id := nid, trainee_technology_state_id := c.id,
                   start_time := now, end_time := none }] ∧
    (applyWrites s (start_learning_technology s t tech now nid).2).cards =
      s.cards.map (fun x => if x.id == c.id
        then { c with state := LearningState.IN_PROGRESS } else x) := by
  have heq : start_learning_technology s t tech now nid =
      (.ok { c with state := LearningState.IN_PROGRESS },
       [.logAdd { id := nid, trainee_technology_state_id := c.id,
                  start_time := now, end_time := none },
        .cardUpdate { c with state := LearningState.IN_PROGRESS }]) := by
    simp [start_learning_technology, hfa, hfb, hst]
  refine ⟨heq, ?_, ?_⟩ <;> rw [heq] <;> rfl

/-- Witness for `start_learning_success`: starting technology 2 for
trainee 1 from the one-PLANNED-card state. -/
theorem start_learning_success_witness :
    start_learning_technology statePlanned 1 2 7 99 =
      (.ok { cardPlanned with state := LearningState.IN_PROGRESS },
       [.logAdd { id := 99, trainee_technology_state_id := cardPlanned.id,
                  start_time := 7, end_time := none },
        .cardUpdate { cardPlanned with state := LearningState.IN_PROGRESS }]) :=
  (start_learning_success statePlanned 1 2 7 99 cardPlanned (by decide) (by decide)
    (Or.inl (by decide))).1

/-- C5: StopLearning success postcondition.  With the (trainee,
technology) card in IN_PROGRESS and the trainee's open session log
owned by that card, the call closes the log with `end_time = now`
(so, the clock being past the log's start, end is at least start) and
changes no other log field, and returns and persists the card with
state READY_FOR_REVIEW and no other field changed. -/
theorem stop_learning_success (s : RepoState) (t tech now : Nat)
    (c : TraineeTechnologyState) (l : LearningSessionLog)
    (hfb : find_by_trainee_and_technology s t tech = some c)
    (hst : c.state = LearningState.IN_PROGRESS)
    (hfa : find_active_session_by_trainee_id s t = some l)
    (hown : l.trainee_technology_state_id = c.id)
    (hnow : l.start_time ≤ now) :
    stop_learning_technology s t tech now =
      (.ok { c with state := LearningState.READY_FOR_REVIEW },
       [.logUpdate { l with end_time := some now },
        .cardUpdate { c with state := LearningState.READY_FOR_REVIEW }]) ∧
    (applyWrites s (stop_learning_technology s t tech now).2).logs =
      s.logs.map (fun x => if x.id == l.id then { l with end_time := some now } else x) ∧
    (applyWrites s (stop_learning_technology s t tech now).2).cards =
      s.cards.map (fun x => if x.id == c.id
        then { c with state := LearningState.READY_FOR_REVIEW } else x) ∧
    ({ l with end_time := some now }).end_time = some now ∧
    ({ l with end_time := some now }).start_time ≤ now := by
  have heq : stop_learning_technology s t tech now =
      (.ok { c with state := LearningState.READY_FOR_REVIEW },
       [.logUpdate { l with end_time := some now },
        .cardUpdate { c with state := LearningState.READY_FOR_REVIEW }]) := by
    simp [stop_learning_technology, hfb, hst, hfa, hown]
  refine ⟨heq, ?_, ?_, rfl, hnow⟩ <;> rw [heq] <;> rfl

/-- Witness for `stop_learning_success`: stopping technology 2 for
trainee 1 from the running state closes log 100 at time 7 ≥ 5. -/
theorem stop_learning_success_witness :
    stop_learning_technology stateRunning 1 2 7 =
      (.ok { cardInProgress with state := LearningState.READY_FOR_REVIEW },
       [.logUpdate { openLog10 with end_time := some 7 },
        .cardUpdate { cardInProgress with state := LearningState.READY_FOR_REVIEW }]) :=
  (stop_learning_success stateRunning 1 2 7 cardInProgress openLog10 (by decide)
    (by decide) (by decide) (by decide) (by decide)).1

/-- C6: session-ownership mismatch.  With the requested card in
IN_PROGRESS but the trainee's open session owned by a different card,
`stop_learning_technology` fails with
`LearningSessionAlreadyInProgressError` — the same error class
StartLearning raises on an active-session conflict — and performs no
writes. -/
theorem stop_session_mismatch (s : RepoState) (t tech now : Nat)
    (c : TraineeTechnologyState) (l : LearningSessionLog)
    (hfb : find_by_trainee_and_technology s t tech = some c)
    (hst : c.state = LearningState.IN_PROGRESS)
    (hfa : find_active_session_by_trainee_id s t = some l)
    (hmm : l.trainee_technology_state_id ≠ c.id) :
    stop_learning_technology s t tech now =
      (.error .learningSessionAlreadyInProgress, []) ∧
    applyWrites s (stop_learning_technology s t tech now).2 = s ∧
    (∀ s2 t2 tech2 now2 nid2 l2,
      find_active_session_by_trainee_id s2 t2 = some l2 →
      (start_learning_technology s2 t2 tech2 now2 nid2).1 =
        .error .learningSessionAlreadyInProgress) := by
  have heq : stop_learning_technology s t tech now =
      (.error .learningSessionAlreadyInProgress, []) := by
    simp [stop_learning_technology, hfb, hst, hfa, hmm]
  refine ⟨heq, by rw [heq]; rfl, ?_⟩
  intro s2 t2 tech2 now2 nid2 l2 hfa2
  simp [start_learning_technology, hfa2]

/-- Witness for `stop_session_mismatch`: trainee 1's open log belongs to
card 11 while card 10 (technology 2) is requested. -/
theorem stop_session_mismatch_witness :
    stop_learning_technology stateMismatch 1 2 7 =
      (.error .learningSessionAlreadyInProgress, []) ∧
    applyWrites stateMismatch (stop_learning_technology stateMismatch 1 2 7).2
      = stateMismatch :=
  ⟨(stop_session_mismatch stateMismatch 1 2 7 cardInProgress openLog11 (by decide)
      (by decide) (by decide) (by decide)).1,
   (stop_session_mismatch stateMismatch 1 2 7 cardInProgress openLog11 (by decide)
      (by decide) (by decide) (by decide)).2.1⟩

/-- C8 counterexample: starting from the one-PLANNED-card state, a
successful `start_learning_technology` issues two separate repository
writes, and the execution interrupted after the first one (the log add)
leaves an open session log created while the card's state is still
PLANNED — a partial application the claimed transactional boundary would
rule out. -/
theorem start_write_atomicity_counterexample :
    (start_learning_technology statePlanned 1 2 7 99).2.length = 2 ∧
    (applyWrites statePlanned
      ((start_learning_technology statePlanned 1 2 7 99).2.take 1)).logs =
      [{ id := 99, trainee_technology_state_id := 10, start_time := 7, end_time := none }] ∧
    (applyWrites statePlanned
      ((start_learning_technology statePlanned 1 2 7 99).2.take 1)).cards = [cardPlanned] ∧
    cardPlanned.state ≠ LearningState.IN_PROGRESS := by
  decide

/-- C8 (amended): `start_learning_technology` issues its two writes as
two sequential repository calls — the session-log add first, then the
task-card update — with no transactional boundary around them.  A
fault-free (complete) execution applies both writes; the execution
interrupted after the first call has the new open log persisted while
the card store is unchanged. -/
theorem start_writes_sequential (s : RepoState) (t tech now nid : Nat)
    (c : TraineeTechnologyState)
    (hfa : find_active_session_by_trainee_id s t = none)
    (hfb : find_by_trainee_and_technology s t tech = some c)
    (hst : c.state = LearningState.PLANNED ∨ c.state = LearningState.READY_FOR_REVIEW) :
    (start_learning_technology s t tech now nid).2 =
      [.logAdd { id := nid, trainee_technology_state_id := c.id,
                 start_time := now, end_time := none },
       .cardUpdate { c with state := LearningState.IN_PROGRESS }] ∧
    (applyWrites s ((start_learning_technology s t tech now nid).2.take 1)).logs =
      s.logs ++ [{ id := nid, trainee_technology_state_id := c.id,
                   start_time := now, end_time := none }] ∧
    (applyWrites s ((start_learning_technology s t tech now nid).2.take 1)).cards =
      s.cards ∧
    (applyWrites s (start_learning_technology s t tech now nid).2).cards =
      s.cards.map (fun x => if x.id == c.id
        then { c with state := LearningState.IN_PROGRESS } else x) := by
  have heq : (start_learning_technology s t tech now nid).2 =
      [.logAdd { id := nid, trainee_technology_state_id := c.id,
                 start_time := now, end_time := none },
       .cardUpdate { c with state := LearningState.IN_PROGRESS }] := by
    simp [start_learning_technology, hfa, hfb, hst]
  refine ⟨heq, ?_, ?_, ?_⟩ <;> rw [heq] <;> rfl

/-- Witness for `start_writes_sequential` at the one-PLANNED-card
state. -/
theorem start_writes_sequential_witness :
    (start_learning_technology statePlanned 1 2 7 99).2 =
      [.logAdd { id := 99, trainee_technology_state_id := cardPlanned.id,
                 start_time := 7, end_time := none },
       .cardUpdate { cardPlanned with state := LearningState.IN_PROGRESS }] :=
  (start_writes_sequential statePlanned 1 2 7 99 cardPlanned (by decide) (by decide)
    (Or.inl (by decide))).1

/-- C9: review count validation.  With every per-field constraint
satisfied (`feedback` of length ≥ 10, both optional counts ≥ 0 when
present), constructing a `MentorSubmitReviewDTO` fails if and only if
both `questions_asked` and `questions_correct` are provided and
`questions_correct > questions_asked`; the check is a pure function of
the input data and involves no repository state. -/
theorem mentor_submit_review_validation (tts_id : Nat) (rs : ReviewState)
    (feedback : String) (qa qc : Option Int)
    (hfb : 10 ≤ feedback.length)
    (hqa : optIntNonneg qa = true) (hqc : optIntNonneg qc = true) :
    ((∃ e, mkMentorSubmitReviewDTO tts_id rs feedback qa qc = .error e) ↔
      (∃ a c, qa = some a ∧ qc = some c ∧ a < c)) ∧
    (∀ e, mkMentorSubmitReviewDTO tts_id rs feedback qa qc = .error e →
      e = .questionCountMismatch) := by
  have hlen : ¬ feedback.length < 10 := Nat.not_lt.mpr hfb
  constructor
  · constructor
    · rintro ⟨e, he⟩
      simp [mkMentorSubmitReviewDTO, hlen, hqa, hqc] at he
      cases hqa2 : qa with
      | none => rw [hqa2] at he; simp at he
      | some a =>
        cases hqc2 : qc with
        | none => rw [hqa2, hqc2] at he; simp at he
        | some c =>
          rw [hqa2, hqc2] at he
          by_cases hgt : c > a
          · exact ⟨a, c, rfl, rfl, hgt⟩
          · simp [hgt] at he
    · rintro ⟨a, c, ha, hc, hgt⟩
      subst ha; subst hc
      refine ⟨.questionCountMismatch, ?_⟩
      simp [mkMentorSubmitReviewDTO, hlen, hqa, hqc, hgt]
  · intro e he
    simp [mkMentorSubmitReviewDTO, hlen, hqa, hqc] at he
    cases hqa2 : qa with
    | none => rw [hqa2] at he; simp at he
    | some a =>
      cases hqc2 : qc with
      | none => rw [hqa2, hqc2] at he; simp at he
      | some c =>
        rw [hqa2, hqc2] at he
        by_cases hgt : c > a
        · simp [hgt] at he
          exact he.symm
        · simp [hgt] at he

/-- Witness for `mentor_submit_review_validation`: with valid fields,
3 correct out of 2 asked is rejected (and only the mismatch error is
possible), while 2 correct out of 3 asked is accepted. -/
theorem mentor_submit_review_validation_witness :
    (∃ e, mkMentorSubmitReviewDTO 1 ReviewState.APPROVED "0123456789"
      (some 2) (some 3) = .error e) ∧
    ¬ (∃ e, mkMentorSubmitReviewDTO 1 ReviewState.APPROVED "0123456789"
      (some 3) (some 2) = .error e) :=
  ⟨(mentor_submit_review_validation 1 ReviewState.APPROVED "0123456789"
      (some 2) (some 3) (by decide) (by decide) (by decide)).1.mpr
      ⟨2, 3, rfl, rfl, by decide⟩,
   fun h => by
     have := (mentor_submit_review_validation 1 ReviewState.APPROVED "0123456789"
       (some 3) (some 2) (by decide) (by decide) (by decide)).1.mp h
     obtain ⟨a, c, ha, hc, hgt⟩ := this
     cases ha; cases hc; exact absurd hgt (by decide)⟩

/- Supporting lemmas for the single-open-session invariant and the
terminality of APPROVED. -/

/-- Replacing the card with a matching id keeps every card's id. -/
theorem replace_keeps_id (c' x : TraineeTechnologyState) :
    (if x.id == c'.id then c' else x).id = x.id := by
  by_cases h : x.id = c'.id
  · simp [h]
  · simp [h]

/-- A card update leaves the list of card ids unchanged. -/
theorem cardUpdate_map_id (s : RepoState) (c' : TraineeTechnologyState) :
    ((s.cards.map (fun x => if x.id == c'.id then c' else x)).map (fun c => c.id)) =
      s.cards.map (fun c => c.id) := by
  rw [List.map_map]
  refine List.map_congr_left ?_
  intro x _
  exact replace_keeps_id c' x

/-- With pairwise-distinct card ids, a card is determined by its id. -/
theorem card_unique_of_nodup (s : RepoState) (hnd : CardIdsNodup s)
    (c0 : TraineeTechnologyState) (hc0 : c0 ∈ s.cards) :
    ∀ x ∈ s.cards, x.id = c0.id → x = c0 := by
  intro x hx hid
  exact List.inj_on_of_nodup_map hnd hx hc0 hid

/-- Replacing a card by one with the same id and trainee does not change
which trainee any id-keyed lookup resolves to. -/
theorem find?_id_trainee_stable (cards : List TraineeTechnologyState)
    (c' : TraineeTechnologyState) (k : Nat)
    (h : ∀ x ∈ cards, x.id = c'.id → x.trainee_id = c'.trainee_id) :
    ((cards.map (fun x => if x.id == c'.id then c' else x)).find?
        (fun x => x.id == k)).map (fun x => x.trainee_id) =
      (cards.find? (fun x => x.id == k)).map (fun x => x.trainee_id) := by
  induction cards with
  | nil => rfl
  | cons x xs ih =>
    have hid : (if x.id == c'.id then c' else x).id = x.id := replace_keeps_id c' x
    by_cases hk : x.id = k
    · have h1 : ((if x.id == c'.id then c' else x).id == k) = true := by
        rw [hid]; exact beq_iff_eq.mpr hk
      have h2 : (x.id == k) = true := beq_iff_eq.mpr hk
      rw [List.map_cons, List.find?_cons_of_pos (p := fun c : TraineeTechnologyState => c.id == k) _ h1,
        List.find?_cons_of_pos (p := fun c : TraineeTechnologyState => c.id == k) _ h2]
      by_cases hc : x.id = c'.id
      · have hx := h x (List.mem_cons_self x xs) hc
        simp [hc, hx]
      · simp [hc]
    · have h1 : ¬ ((if x.id == c'.id then c' else x).id == k) = true := by
        rw [hid]; exact fun hb => hk (beq_iff_eq.mp hb)
      have h2 : ¬ (x.id == k) = true := fun hb => hk (beq_iff_eq.mp hb)
      rw [List.map_cons, List.find?_cons_of_neg (p := fun c : TraineeTechnologyState => c.id == k) _ h1,
        List.find?_cons_of_neg (p := fun c : TraineeTechnologyState => c.id == k) _ h2]
      exact ih (fun y hy => h y (List.mem_cons_of_mem x hy))

/-- Two states whose id-keyed card lookups resolve to the same trainee
classify a log's ownership identically. -/
theorem logBelongsToTrainee_eq (s s' : RepoState) (t : Nat) (l : LearningSessionLog)
    (h : (cardForLog s' l).map (fun c => c.trainee_id) =
         (cardForLog s l).map (fun c => c.trainee_id)) :
    logBelongsToTrainee s' t l = logBelongsToTrainee s t l := by
  unfold logBelongsToTrainee
  cases h2 : cardForLog s l with
  | none =>
    cases h1 : cardForLog s' l with
    | none => rfl
    | some c => rw [h1, h2] at h; simp at h
  | some c2 =>
    cases h1 : cardForLog s' l with
    | none => rw [h1, h2] at h; simp at h
    | some c =>
      rw [h1, h2] at h
      simp only [Option.map_some'] at h
      simp only [Option.some.injEq] at h
      simp only []
      rw [h]

/-- Updating a card to a record with the same id and trainee changes no
log's ownership classification. -/
theorem isOpenFor_cardUpdate (s : RepoState) (hnd : CardIdsNodup s)
    (c0 : TraineeTechnologyState) (hc0 : c0 ∈ s.cards) (c' : TraineeTechnologyState)
    (hid : c'.id = c0.id) (htr : c'.trainee_id = c0.trainee_id)
    (t : Nat) (l : LearningSessionLog) :
    isOpenFor (applyWrite s (.cardUpdate c')) t l = isOpenFor s t l := by
  unfold isOpenFor
  have hb : logBelongsToTrainee (applyWrite s (.cardUpdate c')) t l =
      logBelongsToTrainee s t l := by
    apply logBelongsToTrainee_eq
    show ((s.cards.map (fun x => if x.id == c'.id then c' else x)).find?
        (fun c => c.id == l.trainee_technology_state_id)).map (fun c => c.trainee_id) = _
    apply find?_id_trainee_stable
    intro x hx hxid
    have hx0 : x = c0 := card_unique_of_nodup s hnd c0 hc0 x hx (by rw [hxid, hid])
    rw [hx0, ← htr]
  rw [hb]

/-- A card update leaves every trainee's open-session count unchanged
(well-formed store, same id and trainee). -/
theorem openCount_cardUpdate (s : RepoState) (hnd : CardIdsNodup s)
    (c0 : TraineeTechnologyState) (hc0 : c0 ∈ s.cards) (c' : TraineeTechnologyState)
    (hid : c'.id = c0.id) (htr : c'.trainee_id = c0.trainee_id) (t : Nat) :
    OpenCount (applyWrite s (.cardUpdate c')) t = OpenCount s t := by
  unfold OpenCount
  have hlogs : (applyWrite s (.cardUpdate c')).logs = s.logs := rfl
  rw [hlogs]
  apply List.countP_congr
  intro l _
  rw [isOpenFor_cardUpdate s hnd c0 hc0 c' hid htr t l]

/-- A card update preserves well-formedness of the card store. -/
theorem cardIdsNodup_cardUpdate (s : RepoState) (hnd : CardIdsNodup s)
    (c' : TraineeTechnologyState) :
    CardIdsNodup (applyWrite s (.cardUpdate c')) := by
  unfold CardIdsNodup at *
  show ((s.cards.map (fun x => if x.id == c'.id then c' else x)).map (fun c => c.id)).Nodup
  rw [cardUpdate_map_id]
  exact hnd

/-- Log writes leave the card store untouched, hence preserve its
well-formedness. -/
theorem cardIdsNodup_logWrite (s : RepoState) (hnd : CardIdsNodup s)
    (l : LearningSessionLog) :
    CardIdsNodup (applyWrite s (.logAdd l)) ∧ CardIdsNodup (applyWrite s (.logUpdate l)) :=
  ⟨hnd, hnd⟩

/-- Appending a log leaves ownership classification of every log
unchanged (the card store is untouched). -/
theorem isOpenFor_logAdd (s : RepoState) (nl : LearningSessionLog)
    (t : Nat) (l : LearningSessionLog) :
    isOpenFor (applyWrite s (.logAdd nl)) t l = isOpenFor s t l := rfl

/-- Updating a log leaves ownership classification of every log
unchanged (the card store is untouched). -/
theorem isOpenFor_logUpdate (s : RepoState) (ul : LearningSessionLog)
    (t : Nat) (l : LearningSessionLog) :
    isOpenFor (applyWrite s (.logUpdate ul)) t l = isOpenFor s t l := rfl

/-- The card returned by the business-key lookup belongs to the store
and carries the requested trainee and technology. -/
theorem card_of_find_by (s : RepoState) (t tech : Nat) (c : TraineeTechnologyState)
    (hfb : find_by_trainee_and_technology s t tech = some c) :
    c ∈ s.cards ∧ c.trainee_id = t ∧ c.technology_id = tech := by
  have hm := List.mem_of_find?_eq_some hfb
  have hp := List.find?_some hfb
  simp only [Bool.and_eq_true, beq_iff_eq] at hp
  exact ⟨hm, hp.1, hp.2⟩

/-- In a well-formed store, the log created by a start call resolves to
exactly the card it was created for. -/
theorem cardForLog_newLog (s : RepoState) (hnd : CardIdsNodup s)
    (c : TraineeTechnologyState) (hc : c ∈ s.cards) (nid now : Nat) :
    cardForLog s { id := nid, trainee_technology_state_id := c.id,
                   start_time := now, end_time := none } = some c := by
  show s.cards.find? (fun x => x.id == c.id) = some c
  cases hfind : s.cards.find? (fun x => x.id == c.id) with
  | none =>
    exact absurd (beq_iff_eq.mpr rfl) (List.find?_eq_none.mp hfind c hc)
  | some x =>
    have hx := List.find?_some hfind
    have hxm := List.mem_of_find?_eq_some hfind
    rw [card_unique_of_nodup s hnd c hc x hxm (beq_iff_eq.mp hx)]

/-- The log created by a start call is open and belongs exactly to the
trainee owning its card. -/
theorem isOpenFor_newLog (s : RepoState) (hnd : CardIdsNodup s)
    (c : TraineeTechnologyState) (hc : c ∈ s.cards) (nid now u : Nat) :
    isOpenFor s u { id := nid, trainee_technology_state_id := c.id,
                    start_time := now, end_time := none } = (c.trainee_id == u) := by
  unfold isOpenFor logBelongsToTrainee
  rw [cardForLog_newLog s hnd c hc nid now]
  simp only []
  simp [Option.isNone_none, Bool.true_and]

/-- Every repository write preserves well-formedness of the card store:
log writes do not touch cards, and the card update keeps all ids. -/
theorem cardIdsNodup_applyWrite (s : RepoState) (hnd : CardIdsNodup s) (w : RepoWrite) :
    CardIdsNodup (applyWrite s w) := by
  cases w with
  | logAdd l => exact hnd
  | logUpdate l => exact hnd
  | cardUpdate c => exact cardIdsNodup_cardUpdate s hnd c

/-- Any write sequence preserves well-formedness of the card store. -/
theorem cardIdsNodup_applyWrites (s : RepoState) (hnd : CardIdsNodup s)
    (ws : List RepoWrite) : CardIdsNodup (applyWrites s ws) := by
  induction ws generalizing s with
  | nil => exact hnd
  | cons w ws ih => exact ih _ (cardIdsNodup_applyWrite s hnd w)

/-- Any service invocation preserves well-formedness of the card store. -/
theorem cardIdsNodup_applyOp (s : RepoState) (hnd : CardIdsNodup s) (op : Op) :
    CardIdsNodup (applyOp s op) := by
  cases op with
  | start t tech now nid => exact cardIdsNodup_applyWrites s hnd _
  | stop t tech now => exact cardIdsNodup_applyWrites s hnd _

/-- The open session log a successful start call creates (step 5 of
`start_learning_technology`). -/
def newStartLog (nid cid now : Nat) : LearningSessionLog :=
  { id := nid, trainee_technology_state_id := cid, start_time := now, end_time := none }

/-- A task card with its workflow state replaced (`model_copy` with a
`state` update). -/
def withState (c : TraineeTechnologyState) (st : LearningState) : TraineeTechnologyState :=
  { c with state := st }

/-- After a successful start (no prior open session for the trainee, the
trainee's own card updated), the store stays well-formed and every
trainee still has at most one open log: the starting trainee goes from
zero open logs to exactly one, everyone else is untouched. -/
theorem preserve_start_success (s : RepoState) (t now nid : Nat)
    (c : TraineeTechnologyState) (hnd : CardIdsNodup s) (hinv : AtMostOneOpen s)
    (hcmem : c ∈ s.cards) (hctr : c.trainee_id = t)
    (hfa : find_active_session_by_trainee_id s t = none) :
    CardIdsNodup (applyWrites s
      [RepoWrite.logAdd (newStartLog nid c.id now),
       RepoWrite.cardUpdate (withState c LearningState.IN_PROGRESS)]) ∧
    AtMostOneOpen (applyWrites s
      [RepoWrite.logAdd (newStartLog nid c.id now),
       RepoWrite.cardUpdate (withState c LearningState.IN_PROGRESS)]) := by
  have hs1nd : CardIdsNodup (applyWrite s (.logAdd (newStartLog nid c.id now))) := hnd
  constructor
  · exact cardIdsNodup_cardUpdate _ hs1nd _
  · intro u
    have h2 : OpenCount (applyWrite (applyWrite s (.logAdd (newStartLog nid c.id now)))
          (.cardUpdate (withState c LearningState.IN_PROGRESS))) u =
        OpenCount (applyWrite s (.logAdd (newStartLog nid c.id now))) u :=
      openCount_cardUpdate _ hs1nd c hcmem (withState c LearningState.IN_PROGRESS) rfl rfl u
    have hfn : isOpenFor (applyWrite s (.logAdd (newStartLog nid c.id now))) u =
        isOpenFor s u :=
      funext (fun l => isOpenFor_logAdd s _ u l)
    have h3 : OpenCount (applyWrite s (.logAdd (newStartLog nid c.id now))) u =
        OpenCount s u + (if isOpenFor s u (newStartLog nid c.id now) then 1 else 0) := by
      unfold OpenCount
      show List.countP _ (s.logs ++ [newStartLog nid c.id now]) = _
      rw [hfn, List.countP_append]
      simp [List.countP_cons]
    have hnl : isOpenFor s u (newStartLog nid c.id now) = (c.trainee_id == u) :=
      isOpenFor_newLog s hnd c hcmem nid now u
    show OpenCount (applyWrite (applyWrite s (.logAdd (newStartLog nid c.id now)))
        (.cardUpdate (withState c LearningState.IN_PROGRESS))) u ≤ 1
    rw [h2, h3, hnl]
    by_cases hu : u = t
    · subst hu
      have h0 : OpenCount s u = 0 :=
        List.countP_eq_zero.mpr (List.find?_eq_none.mp hfa)
      rw [h0, hctr]
      simp
    · have hne : (c.trainee_id == u) = false := by
        rw [hctr]
        exact beq_eq_false_iff_ne.mpr (fun he => hu he.symm)
      rw [hne]
      simpa using hinv u

/-- After a successful stop (a log closed, the trainee's own card
updated), the store stays well-formed and open-session counts can only
shrink: closing a log removes it from every trainee's open set. -/
theorem preserve_stop_success (s : RepoState) (now : Nat)
    (c : TraineeTechnologyState) (l0 : LearningSessionLog)
    (hnd : CardIdsNodup s) (hinv : AtMostOneOpen s) (hcmem : c ∈ s.cards) :
    CardIdsNodup (applyWrites s
      [RepoWrite.logUpdate { l0 with end_time := some now },
       RepoWrite.cardUpdate (withState c LearningState.READY_FOR_REVIEW)]) ∧
    AtMostOneOpen (applyWrites s
      [RepoWrite.logUpdate { l0 with end_time := some now },
       RepoWrite.cardUpdate (withState c LearningState.READY_FOR_REVIEW)]) := by
  have hs1nd : CardIdsNodup (applyWrite s (.logUpdate { l0 with end_time := some now })) :=
    hnd
  constructor
  · exact cardIdsNodup_cardUpdate _ hs1nd _
  · intro u
    have h2 : OpenCount (applyWrite (applyWrite s
          (.logUpdate { l0 with end_time := some now }))
          (.cardUpdate (withState c LearningState.READY_FOR_REVIEW))) u =
        OpenCount (applyWrite s (.logUpdate { l0 with end_time := some now })) u :=
      openCount_cardUpdate _ hs1nd c hcmem (withState c LearningState.READY_FOR_REVIEW)
        rfl rfl u
    have hfn : isOpenFor (applyWrite s (.logUpdate { l0 with end_time := some now })) u =
        isOpenFor s u :=
      funext (fun l => isOpenFor_logUpdate s _ u l)
    have h3 : OpenCount (applyWrite s (.logUpdate { l0 with end_time := some now })) u ≤
        OpenCount s u := by
      unfold OpenCount
      show List.countP _ (s.logs.map (fun x =>
        if x.id == ({ l0 with end_time := some now } : LearningSessionLog).id
        then { l0 with end_time := some now } else x)) ≤ _
      rw [hfn, List.countP_map]
      apply List.countP_mono_left
      intro x hx hpx
      simp only [Function.comp] at hpx
      by_cases hxid : (x.id == ({ l0 with end_time := some now } : LearningSessionLog).id)
          = true
      · exfalso
        rw [if_pos hxid] at hpx
        unfold isOpenFor at hpx
        simp at hpx
      · rw [if_neg hxid] at hpx
        exact hpx
    show OpenCount (applyWrite (applyWrite s (.logUpdate { l0 with end_time := some now }))
        (.cardUpdate (withState c LearningState.READY_FOR_REVIEW))) u ≤ 1
    rw [h2]
    exact le_trans h3 (hinv u)

/-- Every single service invocation preserves well-formedness and the
single-open-session invariant. -/
theorem preserve_op (s : RepoState) (op : Op)
    (hnd : CardIdsNodup s) (hinv : AtMostOneOpen s) :
    CardIdsNodup (applyOp s op) ∧ AtMostOneOpen (applyOp s op) := by
  cases op with
  | start t tech now nid =>
    cases hfa : find_active_session_by_trainee_id s t with
    | some l =>
      have hw : (start_learning_technology s t tech now nid).2 = [] := by
        simp [start_learning_technology, hfa]
      show CardIdsNodup (applyWrites s (start_learning_technology s t tech now nid).2) ∧
        AtMostOneOpen (applyWrites s (start_learning_technology s t tech now nid).2)
      rw [hw]
      exact ⟨hnd, hinv⟩
    | none =>
      cases hfb : find_by_trainee_and_technology s t tech with
      | none =>
        have hw : (start_learning_technology s t tech now nid).2 = [] := by
          simp [start_learning_technology, hfa, hfb]
        show CardIdsNodup (applyWrites s (start_learning_technology s t tech now nid).2) ∧
          AtMostOneOpen (applyWrites s (start_learning_technology s t tech now nid).2)
        rw [hw]
        exact ⟨hnd, hinv⟩
      | some c =>
        by_cases hst : c.state = LearningState.PLANNED ∨
            c.state = LearningState.READY_FOR_REVIEW
        · obtain ⟨hcmem, hctr, -⟩ := card_of_find_by s t tech c hfb
          have hw : (start_learning_technology s t tech now nid).2 =
              [RepoWrite.logAdd (newStartLog nid c.id now),
               RepoWrite.cardUpdate (withState c LearningState.IN_PROGRESS)] := by
            simp [start_learning_technology, hfa, hfb, hst, newStartLog, withState]
          show CardIdsNodup (applyWrites s (start_learning_technology s t tech now nid).2) ∧
            AtMostOneOpen (applyWrites s (start_learning_technology s t tech now nid).2)
          rw [hw]
          exact preserve_start_success s t now nid c hnd hinv hcmem hctr hfa
        · have hw : (start_learning_technology s t tech now nid).2 = [] := by
            simp [start_learning_technology, hfa, hfb, hst]
          show CardIdsNodup (applyWrites s (start_learning_technology s t tech now nid).2) ∧
            AtMostOneOpen (applyWrites s (start_learning_technology s t tech now nid).2)
          rw [hw]
          exact ⟨hnd, hinv⟩
  | stop t tech now =>
    cases hfb : find_by_trainee_and_technology s t tech with
    | none =>
      have hw : (stop_learning_technology s t tech now).2 = [] := by
        simp [stop_learning_technology, hfb]
      show CardIdsNodup (applyWrites s (stop_learning_technology s t tech now).2) ∧
        AtMostOneOpen (applyWrites s (stop_learning_technology s t tech now).2)
      rw [hw]
      exact ⟨hnd, hinv⟩
    | some c =>
      by_cases hst : c.state ≠ LearningState.IN_PROGRESS
      · have hw : (stop_learning_technology s t tech now).2 = [] := by
          simp [stop_learning_technology, hfb, hst]
        show CardIdsNodup (applyWrites s (stop_learning_technology s t tech now).2) ∧
          AtMostOneOpen (applyWrites s (stop_learning_technology s t tech now).2)
        rw [hw]
        exact ⟨hnd, hinv⟩
      · cases hfa : find_active_session_by_trainee_id s t with
        | none =>
          have hw : (stop_learning_technology s t tech now).2 = [] := by
            simp [stop_learning_technology, hfb, hst, hfa]
          show CardIdsNodup (applyWrites s (stop_learning_technology s t tech now).2) ∧
            AtMostOneOpen (applyWrites s (stop_learning_technology s t tech now).2)
          rw [hw]
          exact ⟨hnd, hinv⟩
        | some l0 =>
          by_cases hmm : l0.trainee_technology_state_id ≠ c.id
          · have hw : (stop_learning_technology s t tech now).2 = [] := by
              simp [stop_learning_technology, hfb, hst, hfa, hmm]
            show CardIdsNodup (applyWrites s (stop_learning_technology s t tech now).2) ∧
              AtMostOneOpen (applyWrites s (stop_learning_technology s t tech now).2)
            rw [hw]
            exact ⟨hnd, hinv⟩
          · obtain ⟨hcmem, -, -⟩ := card_of_find_by s t tech c hfb
            have hw : (stop_learning_technology s t tech now).2 =
                [RepoWrite.logUpdate { l0 with end_time := some now },
                 RepoWrite.cardUpdate (withState c LearningState.READY_FOR_REVIEW)] := by
              simp [stop_learning_technology, hfb, hst, hfa, hmm, withState]
            show CardIdsNodup (applyWrites s (stop_learning_technology s t tech now).2) ∧
              AtMostOneOpen (applyWrites s (stop_learning_technology s t tech now).2)
            rw [hw]
            exact preserve_stop_success s now c l0 hnd hinv hcmem

/-- Every sequence of service invocations preserves well-formedness and
the single-open-session invariant. -/
theorem preserve_ops (s : RepoState) (ops : List Op)
    (hnd : CardIdsNodup s) (hinv : AtMostOneOpen s) :
    CardIdsNodup (applyOps s ops) ∧ AtMostOneOpen (applyOps s ops) := by
  induction ops generalizing s with
  | nil => exact ⟨hnd, hinv⟩
  | cons op ops ih =>
    have h := preserve_op s op hnd hinv
    exact ih (applyOp s op) h.1 h.2

/-- C1: single-open-session invariant.  From any well-formed state in
which every trainee has at most one open session log, every sequence of
`start_learning_technology` and `stop_learning_technology` calls keeps
it that way: start creates its open log only after the active-session
check found none, and stop only ever closes logs. -/
theorem single_open_session_invariant (s : RepoState) (ops : List Op)
    (hnd : CardIdsNodup s) (hinv : AtMostOneOpen s) :
    AtMostOneOpen (applyOps s ops) :=
  (preserve_ops s ops hnd hinv).2

/-- Witness for `single_open_session_invariant`: a start followed by a
stop from the one-PLANNED-card state keeps trainee 1 at no more than one
open log. -/
theorem single_open_session_invariant_witness :
    CardIdsNodup statePlanned ∧ AtMostOneOpen statePlanned ∧
    OpenCount (applyOps statePlanned [Op.start 1 2 7 99, Op.stop 1 2 9]) 1 ≤ 1 := by
  have h1 : CardIdsNodup statePlanned := by
    unfold CardIdsNodup
    decide
  have h2 : AtMostOneOpen statePlanned := by
    intro u
    simp [OpenCount, statePlanned]
  exact ⟨h1, h2,
    single_open_session_invariant statePlanned [Op.start 1 2 7 99, Op.stop 1 2 9] h1 h2 1⟩

/-- An APPROVED card survives a card update that targets a
differently-stated card: in a well-formed store the update's id can only
match the non-APPROVED card being transitioned. -/
theorem approved_mem_cardUpdate (s : RepoState) (hnd : CardIdsNodup s)
    (c0 : TraineeTechnologyState) (hc0 : c0 ∈ s.cards)
    (hc0st : c0.state ≠ LearningState.APPROVED) (st : LearningState)
    (c : TraineeTechnologyState) (hc : c ∈ s.cards)
    (ha : c.state = LearningState.APPROVED) :
    c ∈ (applyWrite s (.cardUpdate (withState c0 st))).cards := by
  show c ∈ s.cards.map (fun x => if x.id == (withState c0 st).id then withState c0 st else x)
  have hfc : (if c.id == (withState c0 st).id then withState c0 st else c) = c := by
    have hneq : ¬ ((c.id == (withState c0 st).id) = true) := by
      intro hb
      have hcc0 : c = c0 := card_unique_of_nodup s hnd c0 hc0 c hc (beq_iff_eq.mp hb)
      rw [hcc0] at ha
      exact hc0st ha
    rw [if_neg hneq]
  exact hfc ▸ List.mem_map_of_mem _ hc

/-- A single service invocation never removes or alters an APPROVED
card: erroring calls write nothing, and successful calls update only a
card that was in PLANNED, READY_FOR_REVIEW or IN_PROGRESS. -/
theorem approved_mem_applyOp (s : RepoState) (op : Op) (hnd : CardIdsNodup s)
    (c : TraineeTechnologyState) (hc : c ∈ s.cards)
    (ha : c.state = LearningState.APPROVED) :
    c ∈ (applyOp s op).cards := by
  cases op with
  | start t tech now nid =>
    cases hfa : find_active_session_by_trainee_id s t with
    | some l =>
      have hw : (start_learning_technology s t tech now nid).2 = [] := by
        simp [start_learning_technology, hfa]
      show c ∈ (applyWrites s (start_learning_technology s t tech now nid).2).cards
      rw [hw]
      exact hc
    | none =>
      cases hfb : find_by_trainee_and_technology s t tech with
      | none =>
        have hw : (start_learning_technology s t tech now nid).2 = [] := by
          simp [start_learning_technology, hfa, hfb]
        show c ∈ (applyWrites s (start_learning_technology s t tech now nid).2).cards
        rw [hw]
        exact hc
      | some c0 =>
        by_cases hst : c0.state = LearningState.PLANNED ∨
            c0.state = LearningState.READY_FOR_REVIEW
        · obtain ⟨hc0mem, -, -⟩ := card_of_find_by s t tech c0 hfb
          have hc0st : c0.state ≠ LearningState.APPROVED := by
            rcases hst with h | h <;> rw [h] <;> intro hcon <;> cases hcon
          have hw : (start_learning_technology s t tech now nid).2 =
              [RepoWrite.logAdd (newStartLog nid c0.id now),
               RepoWrite.cardUpdate (withState c0 LearningState.IN_PROGRESS)] := by
            simp [start_learning_technology, hfa, hfb, hst, newStartLog, withState]
          show c ∈ (applyWrites s (start_learning_technology s t tech now nid).2).cards
          rw [hw]
          exact approved_mem_cardUpdate (applyWrite s (.logAdd (newStartLog nid c0.id now)))
            hnd c0 hc0mem hc0st LearningState.IN_PROGRESS c hc ha
        · have hw : (start_learning_technology s t tech now nid).2 = [] := by
            simp [start_learning_technology, hfa, hfb, hst]
          show c ∈ (applyWrites s (start_learning_technology s t tech now nid).2).cards
          rw [hw]
          exact hc
  | stop t tech now =>
    cases hfb : find_by_trainee_and_technology s t tech with
    | none =>
      have hw : (stop_learning_technology s t tech now).2 = [] := by
        simp [stop_learning_technology, hfb]
      show c ∈ (applyWrites s (stop_learning_technology s t tech now).2).cards
      rw [hw]
      exact hc
    | some c0 =>
      by_cases hst : c0.state ≠ LearningState.IN_PROGRESS
      · have hw : (stop_learning_technology s t tech now).2 = [] := by
          simp [stop_learning_technology, hfb, hst]
        show c ∈ (applyWrites s (stop_learning_technology s t tech now).2).cards
        rw [hw]
        exact hc
      · cases hfa : find_active_session_by_trainee_id s t with
        | none =>
          have hw : (stop_learning_technology s t tech now).2 = [] := by
            simp [stop_learning_technology, hfb, hst, hfa]
          show c ∈ (applyWrites s (stop_learning_technology s t tech now).2).cards
          rw [hw]
          exact hc
        | some l0 =>
          by_cases hmm : l0.trainee_technology_state_id ≠ c0.id
          · have hw : (stop_learning_technology s t tech now).2 = [] := by
              simp [stop_learning_technology, hfb, hst, hfa, hmm]
            show c ∈ (applyWrites s (stop_learning_technology s t tech now).2).cards
            rw [hw]
            exact hc
          · obtain ⟨hc0mem, -, -⟩ := card_of_find_by s t tech c0 hfb
            have hc0in : c0.state = LearningState.IN_PROGRESS := not_not.mp hst
            have hc0st : c0.state ≠ LearningState.APPROVED := by
              rw [hc0in]
              intro hcon
              cases hcon
            have hw : (stop_learning_technology s t tech now).2 =
                [RepoWrite.logUpdate { l0 with end_time := some now },
                 RepoWrite.cardUpdate (withState c0 LearningState.READY_FOR_REVIEW)] := by
              simp [stop_learning_technology, hfb, hst, hfa, hmm, withState]
            show c ∈ (applyWrites s (stop_learning_technology s t tech now).2).cards
            rw [hw]
            exact approved_mem_cardUpdate
              (applyWrite s (.logUpdate { l0 with end_time := some now }))
              hnd c0 hc0mem hc0st LearningState.READY_FOR_REVIEW c hc ha

/-- No sequence of service invocations removes or alters an APPROVED
card. -/
theorem approved_mem_applyOps (s : RepoState) (ops : List Op) (hnd : CardIdsNodup s)
    (c : TraineeTechnologyState) (hc : c ∈ s.cards)
    (ha : c.state = LearningState.APPROVED) :
    c ∈ (applyOps s ops).cards := by
  induction ops generalizing s with
  | nil => exact hc
  | cons op ops ih =>
    exact ih (applyOp s op) (cardIdsNodup_applyOp s hnd op)
      (approved_mem_applyOp s op hnd c hc ha)

/-- C7: APPROVED is terminal.  On a card in state APPROVED both
`start_learning_technology` and `stop_learning_technology` fail with an
error rather than silently accepting the action, and no sequence of
service invocations changes (or removes) an APPROVED card: the exact
record stays in the store. -/
theorem approved_is_terminal (s : RepoState) (hnd : CardIdsNodup s) :
    (∀ t tech now nid c, find_by_trainee_and_technology s t tech = some c →
      c.state = LearningState.APPROVED →
      (∃ e, (start_learning_technology s t tech now nid).1 = .error e) ∧
      (∃ e, (stop_learning_technology s t tech now).1 = .error e)) ∧
    (∀ ops c, c ∈ s.cards → c.state = LearningState.APPROVED →
      c ∈ (applyOps s ops).cards) := by
  constructor
  · intro t tech now nid c hfb ha
    constructor
    · cases hfa : find_active_session_by_trainee_id s t with
      | some l =>
        exact ⟨.learningSessionAlreadyInProgress, by simp [start_learning_technology, hfa]⟩
      | none =>
        refine ⟨.invalidLearningStateTransition c.state LearningState.IN_PROGRESS, ?_⟩
        have hst : ¬ (c.state = LearningState.PLANNED ∨
            c.state = LearningState.READY_FOR_REVIEW) := by
          rw [ha]
          rintro (h | h) <;> cases h
        simp [start_learning_technology, hfa, hfb, hst]
    · refine ⟨.invalidLearningStateTransition c.state LearningState.READY_FOR_REVIEW, ?_⟩
      have hst : c.state ≠ LearningState.IN_PROGRESS := by
        rw [ha]
        intro h
        cases h
      simp [stop_learning_technology, hfb, hst]
  · intro ops c hc ha
    exact approved_mem_applyOps s ops hnd c hc ha

/-- Witness for `approved_is_terminal`: at the one-APPROVED-card state,
start and stop both error, and the APPROVED card survives a start
attempt unchanged. -/
theorem approved_is_terminal_witness :
    (∃ e, (start_learning_technology stateApproved 1 2 7 99).1 = .error e) ∧
    (∃ e, (stop_learning_technology stateApproved 1 2 7).1 = .error e) ∧
    cardApproved ∈ (applyOps stateApproved [Op.start 1 2 7 99]).cards := by
  have hnd : CardIdsNodup stateApproved := by
    unfold CardIdsNodup
    decide
  have h1 := (approved_is_terminal stateApproved hnd).1 1 2 7 99 cardApproved
    (by decide) (by decide)
  exact ⟨h1.1, h1.2,
    (approved_is_terminal stateApproved hnd).2 [Op.start 1 2 7 99] cardApproved
      (by decide) (by decide)⟩
